import Mathlib

set_option maxHeartbeats 1000000

namespace DcAvro

/- Shallow embedding of the dc-avro command pipeline: the resource loaders and the schema
validator of _schema_utils.py, and the dispatch / command logic of main.py. External
collaborators (the filesystem, the network, json.loads, fastavro.parse_schema,
ast.literal_eval) are modelled as an explicit environment of oracles; exceptions are
modelled as an Except error channel and I/O as an explicit effect list. -/

mutual
/-- JSON values as produced by json.loads: objects, arrays, strings, integers, booleans and
null. Numbers are modelled as integers; no claim depends on float behaviour. -/
inductive Json where
  | null : Json
  | bool (b : Bool) : Json
  | num (n : Int) : Json
  | str (s : String) : Json
  | arr (xs : JsonList) : Json
  | obj (fields : JsonFields) : Json

/-- A list of JSON values (the elements of a JSON array). -/
inductive JsonList where
  | nil : JsonList
  | cons (hd : Json) (tl : JsonList) : JsonList

/-- The key/value entries of a JSON object, in insertion order. -/
inductive JsonFields where
  | nil : JsonFields
  | cons (key : String) (val : Json) (tl : JsonFields) : JsonFields
end

deriving instance DecidableEq for Json
deriving instance DecidableEq for JsonList
deriving instance DecidableEq for JsonFields

mutual
/-- Python str() rendering of a parsed JSON document (dict/list/str/int/bool/None), as
interpolated into the f-string error messages of the source; escaping inside strings is
elided. -/
def pyRepr : Json → String
  | .null => "None"
  | .bool true => "True"
  | .bool false => "False"
  | .num n => toString n
  | .str s => "\x27" ++ s ++ "\x27"
  | .arr xs => "[" ++ pyReprList xs ++ "]"
  | .obj fields => "\x7b" ++ pyReprFields fields ++ "\x7d"

/-- Comma-separated rendering of the elements of a Python list. -/
def pyReprList : JsonList → String
  | .nil => ""
  | .cons x .nil => pyRepr x
  | .cons x (.cons y tl) => pyRepr x ++ ", " ++ pyReprList (.cons y tl)

/-- Comma-separated rendering of the entries of a Python dict. -/
def pyReprFields : JsonFields → String
  | .nil => ""
  | .cons k v .nil => "\x27" ++ k ++ "\x27: " ++ pyRepr v
  | .cons k v (.cons k2 v2 tl) =>
    "\x27" ++ k ++ "\x27: " ++ pyRepr v ++ ", " ++ pyReprFields (.cons k2 v2 tl)
end

/-- Whether the first list occurs as a contiguous run inside the second. -/
def listContains : List Char → List Char → Bool
  | sub, [] => sub.isEmpty
  | sub, c :: rest => sub.isPrefixOf (c :: rest) || listContains sub rest

/-- Whether the string sub occurs as a contiguous substring of s. -/
def strContains (s sub : String) : Bool := listContains sub.data s.data

/-- Observable I/O effects of the resource loaders: one filesystem read of a path (the
open/read in get_resource_from_path) or one HTTP GET of a url (httpx.get). -/
inductive Effect where
  | fsRead (path : String) : Effect
  | netGet (url : String) : Effect
deriving DecidableEq

/-- Exceptions that cross the functions of the source: typer.BadParameter (usage errors),
JsonRequired (the spec name for it is ResourceFormatError) carrying its message and the
wrapped json.JSONDecodeError text, InvalidSchema (InvalidSchemaError), OSError from open(),
httpx transport errors, and a catch-all for other exceptions such as ValueError from
ast.literal_eval. -/
inductive Err where
  | badParameter (msg : String) : Err
  | jsonRequired (msg : String) (cause : String) : Err
  | invalidSchema (msg : String) : Err
  | fsError (path : String) : Err
  | netError (msg : String) : Err
  | otherError (msg : String) : Err
deriving DecidableEq

/-- Outcome of httpx.get on a url: either a response with a status code and a body, or a
raised transport exception (timeout, connection refused, ...). -/
inductive HttpResult where
  | response (status : Nat) (body : String) : HttpResult
  | exc (msg : String) : HttpResult
deriving DecidableEq

/-- Outcome of fastavro parse_schema on a document: success, a SchemaParseException with
its message, or an UnknownType with its message. -/
inductive ParseOutcome where
  | ok : ParseOutcome
  | schemaParseException (msg : String) : ParseOutcome
  | unknownType (msg : String) : ParseOutcome
deriving DecidableEq

/-- The environment a run works against: the filesystem (none when open() raises OSError),
the network, json.loads (the error carries the JSONDecodeError message), fastavro
parse_schema, and ast.literal_eval. -/
structure Env where
  fs : String → Option String
  net : String → HttpResult
  jsonParse : String → Except String Json
  parse : Json → ParseOutcome
  literalEval : String → Except String Json

namespace SchemaUtils

/-- Message of JsonRequired in both loaders: the f-string naming the offending path or url. -/
def jsonRequiredMsg (resource : String) : String :=
  "Can not convert to json the resource from " ++ resource

/-- get_resource_from_url of _schema_utils.py: one httpx.get, then response.json(); a
json.JSONDecodeError is wrapped in JsonRequired, every other exception propagates, and the
response status is never consulted. The result is paired with the attempted I/O effects. -/
def get_resource_from_url (env : Env) (url : String) : Except Err Json × List Effect :=
  match env.net url with
  | .exc m => (.error (.netError m), [.netGet url])
  | .response _ body =>
    match env.jsonParse body with
    | .ok j => (.ok j, [.netGet url])
    | .error cause => (.error (.jsonRequired (jsonRequiredMsg url) cause), [.netGet url])

/-- get_resource_from_path of _schema_utils.py: open and read the file (an OSError
propagates unwrapped), then json.loads the text, wrapping a json.JSONDecodeError in
JsonRequired. -/
def get_resource_from_path (env : Env) (path : String) : Except Err Json × List Effect :=
  match env.fs path with
  | none => (.error (.fsError path), [.fsRead path])
  | some content =>
    match env.jsonParse content with
    | .ok j => (.ok j, [.fsRead path])
    | .error cause => (.error (.jsonRequired (jsonRequiredMsg path) cause), [.fsRead path])

/-- Message of InvalidSchema for a SchemaParseException: names the document and carries the
message of the parser. -/
def notValidMsg (schema : Json) (excMsg : String) : String :=
  "Schema " ++ pyRepr schema ++ " is not valid.\n Error: `" ++ excMsg ++ "`"

/-- Message of InvalidSchema for an UnknownType: names the document and adds a fixed hint. -/
def unknownTypeMsg (schema : Json) : String :=
  "Schema " ++ pyRepr schema ++
    " is an unknown type.\n Make sure that its type is a python dictionary"

/-- validate_schema of _schema_utils.py: run parse_schema, return True on success, raise
InvalidSchema on SchemaParseException or UnknownType. -/
def validate_schema (env : Env) (schema : Json) : Except Err Bool :=
  match env.parse schema with
  | .ok => .ok true
  | .schemaParseException m => .error (.invalidSchema (notValidMsg schema m))
  | .unknownType _ => .error (.invalidSchema (unknownTypeMsg schema))

/-- Modelled from the spec: main.py calls _schema_utils.validate, whose definition is not
included under src; the spec describes a single Schema Validator whose contract is exactly
the validate_schema function above, so validate is modelled as that function. -/
def validate (env : Env) (schema : Json) : Except Err Bool :=
  validate_schema env schema

end SchemaUtils

namespace Main

/-- The two messages built by generate_error_messages of main.py. -/
structure ErrorMessages where
  all_specified : String
  required : String

/-- generate_error_messages of main.py (defaults are the names of the path and url flags). -/
def generate_error_messages (path_name : String) (url_name : String) : ErrorMessages :=
  ⟨"You can not specify both " ++ path_name ++ " and " ++ url_name,
   path_name ++ " or " ++ url_name ++ " must be specified"⟩

/-- Python truthiness of an optional string option: None and the empty string are falsy.
This is the test all([path, url]) applies in get_resource. -/
def truthy : Option String → Bool
  | none => false
  | some s => !s.isEmpty

/-- get_resource of main.py: the mutual-exclusivity check over the truthiness of both
options, then dispatch on whether path (first) or url is not None, else the missing-option
usage error. -/
def get_resource (env : Env) (path url : Option String)
    (error_messages : Option ErrorMessages) : Except Err Json × List Effect :=
  let em := error_messages.getD (generate_error_messages "--path" "--url")
  if truthy path && truthy url then
    (.error (.badParameter em.all_specified), [])
  else
    match path with
    | some p => SchemaUtils.get_resource_from_path env p
    | none =>
      match url with
      | some u => SchemaUtils.get_resource_from_url env u
      | none => (.error (.badParameter em.required), [])

/-- Modelled from the spec: the exit-code mapping of the CLI runtime (typer/click), which is
not part of this repository. A BadParameter usage error exits with code 2 and any other
uncaught exception exits with code 1. -/
def exitOfErr : Err → Nat
  | .badParameter _ => 2
  | _ => 1

/-- Exit code of a command body that returned or raised as given: 0 on normal completion,
otherwise the code of the escaped exception. -/
def runExit {α : Type} : Except Err α → Nat
  | .ok _ => 0
  | .error e => exitOfErr e

/-- One console.print of a command: literal text or a structured value. -/
inductive OutLine where
  | text (s : String) : OutLine
  | value (j : Json) : OutLine

/-- The success banner printed by the validate-schema command. -/
def validMsg : String := "[bold green]Valid schema!![/bold green] :+1: \n"

/-- validate_schema command of main.py: get_resource, then _schema_utils.validate; when the
latter returns True, print the banner and the schema; any exception propagates. -/
def validate_schema (env : Env) (path url : Option String) :
    Except Err (List OutLine) × List Effect :=
  match get_resource env path url none with
  | (.error e, effs) => (.error e, effs)
  | (.ok resource, effs) =>
    match SchemaUtils.validate env resource with
    | .error e => (.error e, effs)
    | .ok b => if b then (.ok [.text validMsg, .value resource], effs) else (.ok [], effs)

/-- Modelled from the spec: SerializationType of the module _types.py, which is absent from
src. The CLI accepts the serialization types avro and avro-json; the class is a string-valued
Enum whose members AVRO and AVRO_JSON compare equal to their value strings. -/
inductive SerializationType where
  | avro : SerializationType
  | avroJson : SerializationType
deriving DecidableEq

/-- String value of a SerializationType member (its content as a str subclass). -/
def SerializationType.value : SerializationType → String
  | .avro => "avro"
  | .avroJson => "avro-json"

/-- The event argument after the interpretation step of the deserialize command: either the
ast.literal_eval of the text, or the raw text destined for event.encode(). -/
inductive EventData where
  | literal (v : Json) : EventData
  | encodedText (s : String) : EventData

/-- The interpretation of the event argument in the deserialize command of main.py:
ast.literal_eval(event) when serialization_type == SerializationType.AVRO.value, otherwise
event.encode(); the result is then handed to serialization.deserialize. -/
def deserialize_event_data (env : Env) (serialization_type : SerializationType)
    (event : String) : Except Err EventData :=
  if serialization_type.value = SerializationType.avro.value then
    match env.literalEval event with
    | .ok v => .ok (.literal v)
    | .error m => .error (.otherError m)
  else
    .ok (.encodedText event)

/-- Observable outcome of the lint command: the valid paths printed, the (path, error) pairs
printed, and the exception escaping the command, if any. When an uncaught exception aborts
the loop, nothing at all is printed (all printing happens after the loop). -/
structure LintReport where
  valid : List String
  errors : List (String × Err)
  raised : Option Err
deriving DecidableEq

/-- Insertion into a Python dict rendered as an association list: an existing key keeps its
position and receives the new value, a new key is appended at the end. -/
def upsert (k : String) (v : Err) : List (String × Err) → List (String × Err)
  | [] => [(k, v)]
  | (k1, v1) :: rest => if k1 = k then (k, v) :: rest else (k1, v1) :: upsert k v rest

/-- The loop of the lint command: per path, get_resource_from_path catching only
JsonRequired, then validate catching only InvalidSchema; any other exception aborts the
whole command at once. -/
def lintLoop (env : Env) : List String → List String → List (String × Err) →
    Except Err (List String × List (String × Err))
  | [], valids, errs => .ok (valids, errs)
  | p :: rest, valids, errs =>
    match (SchemaUtils.get_resource_from_path env p).fst with
    | .error (.jsonRequired m c) => lintLoop env rest valids (upsert p (.jsonRequired m c) errs)
    | .error e => .error e
    | .ok schema =>
      match SchemaUtils.validate env schema with
      | .error (.invalidSchema m) => lintLoop env rest valids (upsert p (.invalidSchema m) errs)
      | .error e => .error e
      | .ok _ => lintLoop env rest (valids ++ [p]) errs

/-- lint command of main.py: run the loop over the given files with empty accumulators,
print the valid paths and then the errors, and raise InvalidSchema with the total count
whenever any error was recorded. -/
def lint (env : Env) (files : List String) : LintReport :=
  match lintLoop env files [] [] with
  | .error e => ⟨[], [], some e⟩
  | .ok (valids, errs) =>
    ⟨valids, errs,
      if errs.isEmpty then none
      else some (.invalidSchema ("Total errors detected: " ++ toString errs.length))⟩

/-- Exit code of a lint run. -/
def lintExit (r : LintReport) : Nat :=
  match r.raised with
  | none => 0
  | some e => exitOfErr e

/-- Whether a path loads as JSON and validates as a schema (the success case of one lint
iteration). -/
def lintOk (env : Env) (p : String) : Bool :=
  match (SchemaUtils.get_resource_from_path env p).fst with
  | .error _ => false
  | .ok schema =>
    match SchemaUtils.validate env schema with
    | .ok _ => true
    | .error _ => false

/-- The error lint records for a failing path. -/
def lintErr (env : Env) (p : String) : Err :=
  match (SchemaUtils.get_resource_from_path env p).fst with
  | .error e => e
  | .ok schema =>
    match SchemaUtils.validate env schema with
    | .error e => e
    | .ok _ => .otherError ""

end Main

/- Concrete environments used by witnesses and counterexamples. -/

/-- Environment with no readable file, no reachable network, and no parseable JSON. -/
def envC1 : Env :=
  ⟨fun _ => none, fun _ => .exc "connect error", fun _ => .error "Expecting value",
   fun _ => .ok, fun _ => .error "malformed node"⟩

/-- Environment for the lint witness: a.avsc is valid, b.txt is not JSON. -/
def envC2w : Env :=
  ⟨fun p => if p = "a.avsc" then some "\x7b\x7d"
            else if p = "b.txt" then some "not json" else none,
   fun _ => .exc "no network",
   fun s => if s = "\x7b\x7d" then .ok (.obj .nil)
            else .error "Expecting value: line 1 column 1 (char 0)",
   fun _ => .ok, fun _ => .error "malformed node"⟩

/-- Environment for the lint counterexample: good.avsc is valid, every other path is
missing from the filesystem. -/
def envC2c : Env :=
  ⟨fun p => if p = "good.avsc" then some "\x7b\x7d" else none,
   fun _ => .exc "no network",
   fun s => if s = "\x7b\x7d" then .ok (.obj .nil) else .error "Expecting value",
   fun _ => .ok, fun _ => .error "malformed node"⟩

/-- Environment whose Avro parser rejects every document as an unknown type, with a
recognizable parser message. -/
def envC4 : Env :=
  ⟨fun _ => none, fun _ => .exc "connect error", fun _ => .error "Expecting value",
   fun _ => .unknownType "UNIQUEPARSERMSG", fun _ => .error "malformed node"⟩

/-- A small schema document: a dict with one entry. -/
def jC4 : Json := .obj (.cons "type" (.str "zzz") .nil)

/-- Environment for the ResourceFormatError witness: bad.avsc and the body served at
http://r hold text that is not JSON. -/
def envC5 : Env :=
  ⟨fun p => if p = "bad.avsc" then some "oops" else none,
   fun u => if u = "http://r" then .response 200 "oops" else .exc "connect error",
   fun _ => .error "Expecting value: line 1 column 1 (char 0)",
   fun _ => .ok, fun _ => .error "malformed node"⟩

/-- Environment for the validate-schema witness: example.avsc holds a valid schema. -/
def envC6 : Env :=
  ⟨fun p => if p = "example.avsc" then some "\x7b\x7d" else none,
   fun _ => .exc "no network",
   fun s => if s = "\x7b\x7d" then .ok (.obj .nil) else .error "Expecting value",
   fun _ => .ok, fun _ => .error "malformed node"⟩

/-- Environment for the url loader: http://bad answers 500 with a JSON body, every other
url raises a transport error. -/
def envC7 : Env :=
  ⟨fun _ => none,
   fun u => if u = "http://bad" then .response 500 "\x7b\x7d" else .exc "connect error",
   fun s => if s = "\x7b\x7d" then .ok (.obj .nil) else .error "Expecting value",
   fun _ => .ok, fun _ => .error "malformed node"⟩

/-- Environment for the deserialize witness. -/
def envC8 : Env :=
  ⟨fun _ => none, fun _ => .exc "no network", fun _ => .error "Expecting value",
   fun _ => .ok, fun s => .ok (.str s)⟩

/-- Environment whose Avro parser accepts every document. -/
def envC9 : Env :=
  ⟨fun _ => none, fun _ => .exc "no network", fun _ => .error "Expecting value",
   fun _ => .ok, fun _ => .error "malformed node"⟩

/-- Environment for the empty-path dispatch witness. -/
def envC10 : Env :=
  ⟨fun _ => none, fun _ => .exc "no network", fun _ => .error "Expecting value",
   fun _ => .ok, fun _ => .error "malformed node"⟩

/- Helper lemmas. -/

theorem isPrefixOf_append_self (l r : List Char) : l.isPrefixOf (l ++ r) = true := by
  induction l with
  | nil => simp
  | cons a as ih => simp [List.isPrefixOf, ih]

theorem listContains_nil_left (s : List Char) : listContains [] s = true := by
  cases s <;> simp [listContains]

theorem listContains_append (pre sub suf : List Char) :
    listContains sub (pre ++ sub ++ suf) = true := by
  induction pre with
  | nil =>
    cases sub with
    | nil => simpa using listContains_nil_left suf
    | cons a as =>
      have h := isPrefixOf_append_self (a :: as) suf
      simp only [List.cons_append, List.nil_append] at h ⊢
      simp [listContains, h]
  | cons p ps ih =>
    have ih2 : listContains sub (ps ++ (sub ++ suf)) = true := by
      simpa [List.append_assoc] using ih
    simp only [List.cons_append, List.append_assoc]
    simp [listContains, ih2]

theorem strContains_append (pre mid suf : String) :
    strContains (pre ++ mid ++ suf) mid = true := by
  have h := listContains_append pre.data mid.data suf.data
  simpa [strContains, String.data_append] using h

theorem exitOfErr_ne_zero (e : Err) : Main.exitOfErr e ≠ 0 := by
  cases e <;> simp [Main.exitOfErr]

theorem get_resource_from_path_snd (env : Env) (p : String) :
    (SchemaUtils.get_resource_from_path env p).snd = [Effect.fsRead p] := by
  unfold SchemaUtils.get_resource_from_path
  cases hfs : env.fs p with
  | none => simp
  | some c => cases hj : env.jsonParse c <;> simp [hj]

theorem get_resource_from_path_no_usage (env : Env) (p : String) (msg : String) :
    (SchemaUtils.get_resource_from_path env p).fst ≠ .error (.badParameter msg) := by
  unfold SchemaUtils.get_resource_from_path
  cases hfs : env.fs p with
  | none => simp
  | some c => cases hj : env.jsonParse c <;> simp [hj]

theorem upsert_fresh (k : String) (v : Err) (l : List (String × Err))
    (h : ∀ q ∈ l, q.1 ≠ k) : Main.upsert k v l = l ++ [(k, v)] := by
  induction l with
  | nil => rfl
  | cons a tl ih =>
    obtain ⟨k1, v1⟩ := a
    have hk : k1 ≠ k := h (k1, v1) (by simp)
    simp [Main.upsert, hk]
    exact ih (fun q hq => h q (by simp [hq]))

theorem lintLoop_spec (env : Env) (files : List String) :
    ∀ (valids : List String) (errs : List (String × Err)),
    (∀ p ∈ files, env.fs p ≠ none) → files.Nodup →
    (∀ p ∈ files, ∀ q ∈ errs, q.1 ≠ p) →
    Main.lintLoop env files valids errs =
      .ok (valids ++ files.filter (Main.lintOk env),
           errs ++ (files.filter (fun p => ! Main.lintOk env p)).map
             (fun p => (p, Main.lintErr env p))) := by
  induction files with
  | nil =>
    intro valids errs _ _ _
    simp [Main.lintLoop]
  | cons p rest ih =>
    intro valids errs hfs hnd hkeys
    have hfs_rest : ∀ q ∈ rest, env.fs q ≠ none := fun q hq => hfs q (by simp [hq])
    have hnd_rest : rest.Nodup := (List.nodup_cons.mp hnd).2
    have hp_rest : p ∉ rest := (List.nodup_cons.mp hnd).1
    obtain ⟨c, hc⟩ : ∃ c, env.fs p = some c := by
      cases h : env.fs p with
      | none => exact absurd h (hfs p (by simp))
      | some c => exact ⟨c, rfl⟩
    have hkeys_app : ∀ e : Err, ∀ p2 ∈ rest, ∀ q ∈ errs ++ [(p, e)], q.1 ≠ p2 := by
      intro e p2 hp2 q hq
      rcases List.mem_append.mp hq with hq | hq
      · exact hkeys p2 (by simp [hp2]) q hq
      · simp only [List.mem_singleton] at hq
        subst hq
        intro hpp
        have hpe : p = p2 := hpp
        subst hpe
        exact hp_rest hp2
    cases hj : env.jsonParse c with
    | ok j =>
      have hload : (SchemaUtils.get_resource_from_path env p).fst = .ok j := by
        simp [SchemaUtils.get_resource_from_path, hc, hj]
      cases hpar : env.parse j with
      | ok =>
        have hval : SchemaUtils.validate env j = .ok true := by
          simp [SchemaUtils.validate, SchemaUtils.validate_schema, hpar]
        have hok : Main.lintOk env p = true := by
          simp [Main.lintOk, hload, hval]
        have hrec := ih (valids ++ [p]) errs hfs_rest hnd_rest
          (fun q hq r hr => hkeys q (by simp [hq]) r hr)
        rw [show Main.lintLoop env (p :: rest) valids errs =
              Main.lintLoop env rest (valids ++ [p]) errs from by
            simp [Main.lintLoop, hload, hval]]
        rw [hrec]
        simp [List.filter_cons, hok, List.append_assoc]
      | schemaParseException m =>
        have hval : SchemaUtils.validate env j =
            .error (.invalidSchema (SchemaUtils.notValidMsg j m)) := by
          simp [SchemaUtils.validate, SchemaUtils.validate_schema, hpar]
        have hok : Main.lintOk env p = false := by
          simp [Main.lintOk, hload, hval]
        have herr : Main.lintErr env p = .invalidSchema (SchemaUtils.notValidMsg j m) := by
          simp [Main.lintErr, hload, hval]
        have hupsert : Main.upsert p (.invalidSchema (SchemaUtils.notValidMsg j m)) errs =
            errs ++ [(p, .invalidSchema (SchemaUtils.notValidMsg j m))] :=
          upsert_fresh _ _ _ (fun q hq => hkeys p (by simp) q hq)
        have hrec := ih valids (errs ++ [(p, .invalidSchema (SchemaUtils.notValidMsg j m))])
          hfs_rest hnd_rest (hkeys_app _)
        rw [show Main.lintLoop env (p :: rest) valids errs =
              Main.lintLoop env rest valids
                (Main.upsert p (.invalidSchema (SchemaUtils.notValidMsg j m)) errs) from by
            simp [Main.lintLoop, hload, hval]]
        rw [hupsert, hrec]
        simp [List.filter_cons, hok, herr, List.append_assoc]
      | unknownType m =>
        have hval : SchemaUtils.validate env j =
            .error (.invalidSchema (SchemaUtils.unknownTypeMsg j)) := by
          simp [SchemaUtils.validate, SchemaUtils.validate_schema, hpar]
        have hok : Main.lintOk env p = false := by
          simp [Main.lintOk, hload, hval]
        have herr : Main.lintErr env p = .invalidSchema (SchemaUtils.unknownTypeMsg j) := by
          simp [Main.lintErr, hload, hval]
        have hupsert : Main.upsert p (.invalidSchema (SchemaUtils.unknownTypeMsg j)) errs =
            errs ++ [(p, .invalidSchema (SchemaUtils.unknownTypeMsg j))] :=
          upsert_fresh _ _ _ (fun q hq => hkeys p (by simp) q hq)
        have hrec := ih valids (errs ++ [(p, .invalidSchema (SchemaUtils.unknownTypeMsg j))])
          hfs_rest hnd_rest (hkeys_app _)
        rw [show Main.lintLoop env (p :: rest) valids errs =
              Main.lintLoop env rest valids
                (Main.upsert p (.invalidSchema (SchemaUtils.unknownTypeMsg j)) errs) from by
            simp [Main.lintLoop, hload, hval]]
        rw [hupsert, hrec]
        simp [List.filter_cons, hok, herr, List.append_assoc]
    | error cause =>
      have hload : (SchemaUtils.get_resource_from_path env p).fst =
          .error (.jsonRequired (SchemaUtils.jsonRequiredMsg p) cause) := by
        simp [SchemaUtils.get_resource_from_path, hc, hj]
      have hok : Main.lintOk env p = false := by
        simp [Main.lintOk, hload]
      have herr : Main.lintErr env p = .jsonRequired (SchemaUtils.jsonRequiredMsg p) cause := by
        simp [Main.lintErr, hload]
      have hupsert : Main.upsert p (.jsonRequired (SchemaUtils.jsonRequiredMsg p) cause) errs =
          errs ++ [(p, .jsonRequired (SchemaUtils.jsonRequiredMsg p) cause)] :=
        upsert_fresh _ _ _ (fun q hq => hkeys p (by simp) q hq)
      have hrec := ih valids
        (errs ++ [(p, .jsonRequired (SchemaUtils.jsonRequiredMsg p) cause)])
        hfs_rest hnd_rest (hkeys_app _)
      rw [show Main.lintLoop env (p :: rest) valids errs =
            Main.lintLoop env rest valids
              (Main.upsert p (.jsonRequired (SchemaUtils.jsonRequiredMsg p) cause) errs) from by
          simp [Main.lintLoop, hload]]
      rw [hupsert, hrec]
      simp [List.filter_cons, hok, herr, List.append_assoc]

/- Claim theorems. -/

/-- C9: validate_schema returns True whenever the external parser accepts the document, and
it never returns False: every run either returns True or raises. In this embedding it is a
pure function of the document and the parse oracle, with no effect channel at all. -/
theorem validate_schema_returns_true (env : Env) (schema : Json) :
    (env.parse schema = .ok → SchemaUtils.validate_schema env schema = .ok true) ∧
    (∀ b, SchemaUtils.validate_schema env schema = .ok b → b = true) := by
  constructor
  · intro h
    simp [SchemaUtils.validate_schema, h]
  · intro b hb
    unfold SchemaUtils.validate_schema at hb
    cases h : env.parse schema <;> rw [h] at hb <;> simp at hb
    exact hb

/-- C9 witness: on an environment whose parser accepts everything, validate_schema applied
to the empty dict returns True. -/
theorem validate_schema_returns_true_witness :
    SchemaUtils.validate_schema envC9 (.obj .nil) = .ok true :=
  (validate_schema_returns_true envC9 (.obj .nil)).1 rfl

/-- C10: with path supplied as the empty string and any url supplied, the both-specified
conflict check of get_resource does not fire: the call dispatches to the path loader,
attempting a filesystem read of the empty path, and never raises the usage error. -/
theorem get_resource_empty_path_dispatch (env : Env) (u : String)
    (em : Option Main.ErrorMessages) :
    Main.get_resource env (some "") (some u) em = SchemaUtils.get_resource_from_path env "" ∧
    (Main.get_resource env (some "") (some u) em).snd = [Effect.fsRead ""] ∧
    ∀ msg, (Main.get_resource env (some "") (some u) em).fst ≠ .error (.badParameter msg) := by
  have h1 : Main.get_resource env (some "") (some u) em =
      SchemaUtils.get_resource_from_path env "" := by
    have hc : Main.truthy (some "") = false := by decide
    simp [Main.get_resource, hc]
  refine ⟨h1, ?_, ?_⟩
  · rw [h1]
    exact get_resource_from_path_snd env ""
  · intro msg
    rw [h1]
    exact get_resource_from_path_no_usage env "" msg

/-- C10 witness: concrete instance of the empty-path dispatch, showing the attempted
filesystem read of the empty path. -/
theorem get_resource_empty_path_dispatch_witness :
    (Main.get_resource envC10 (some "") (some "http://x") none).snd = [Effect.fsRead ""] :=
  (get_resource_empty_path_dispatch envC10 "http://x" none).2.1

/-- C5: when a resource is retrieved (from a path or from a url) but its content is not
valid JSON, the loader raises JsonRequired (the ResourceFormatError of the spec) wrapping
the message of the underlying JSON parse failure, and its message names the offending path
or url. -/
theorem resource_format_error (env : Env) :
    (∀ path content cause, env.fs path = some content → env.jsonParse content = .error cause →
      (SchemaUtils.get_resource_from_path env path).fst =
        .error (.jsonRequired (SchemaUtils.jsonRequiredMsg path) cause) ∧
      strContains (SchemaUtils.jsonRequiredMsg path) path = true) ∧
    (∀ url status body cause, env.net url = .response status body →
      env.jsonParse body = .error cause →
      (SchemaUtils.get_resource_from_url env url).fst =
        .error (.jsonRequired (SchemaUtils.jsonRequiredMsg url) cause) ∧
      strContains (SchemaUtils.jsonRequiredMsg url) url = true) := by
  constructor
  · intro path content cause hfs hj
    refine ⟨by simp [SchemaUtils.get_resource_from_path, hfs, hj], ?_⟩
    have h := strContains_append "Can not convert to json the resource from " path ""
    simpa [SchemaUtils.jsonRequiredMsg, String.append_empty] using h
  · intro url status body cause hnet hj
    refine ⟨by simp [SchemaUtils.get_resource_from_url, hnet, hj], ?_⟩
    have h := strContains_append "Can not convert to json the resource from " url ""
    simpa [SchemaUtils.jsonRequiredMsg, String.append_empty] using h

/-- C5 witness: a file holding text that is not JSON raises JsonRequired wrapping the
JSONDecodeError message, and the message names the path. -/
theorem resource_format_error_witness :
    (SchemaUtils.get_resource_from_path envC5 "bad.avsc").fst =
      .error (.jsonRequired (SchemaUtils.jsonRequiredMsg "bad.avsc")
        "Expecting value: line 1 column 1 (char 0)") ∧
    strContains (SchemaUtils.jsonRequiredMsg "bad.avsc") "bad.avsc" = true :=
  (resource_format_error envC5).1 "bad.avsc" "oops"
    "Expecting value: line 1 column 1 (char 0)" (by decide) rfl

/-- C1 counterexample: with path supplied as the empty string and url supplied, get_resource
does not fail with a usage error before I/O: a filesystem read is attempted (the effect list
is nonempty) and the exit code is not 2. -/
theorem get_resource_usage_error_counterexample :
    ¬ ((Main.get_resource envC1 (some "") (some "http://x") none).snd = [] ∧
       Main.runExit (Main.get_resource envC1 (some "") (some "http://x") none).fst = 2) := by
  decide

/-- C1 (amended): when path and url are both supplied with non-empty values, or when neither
option is supplied, get_resource fails with a BadParameter usage error (exit code 2) before
any resource loading: the attempted effect list is empty, so no filesystem read and no
network call happens. -/
theorem get_resource_usage_error (env : Env) (path url : Option String)
    (em : Option Main.ErrorMessages)
    (h : (Main.truthy path && Main.truthy url) = true ∨ (path = none ∧ url = none)) :
    (∃ msg, (Main.get_resource env path url em).fst = .error (.badParameter msg)) ∧
    (Main.get_resource env path url em).snd = [] ∧
    Main.runExit (Main.get_resource env path url em).fst = 2 := by
  rcases h with h | ⟨hp, hu⟩
  · refine ⟨⟨(em.getD (Main.generate_error_messages "--path" "--url")).all_specified, ?_⟩, ?_, ?_⟩ <;>
      simp [Main.get_resource, h, Main.runExit, Main.exitOfErr]
  · subst hp
    subst hu
    refine ⟨⟨(em.getD (Main.generate_error_messages "--path" "--url")).required, ?_⟩, ?_, ?_⟩ <;>
      simp [Main.get_resource, Main.truthy, Main.runExit, Main.exitOfErr]

/-- C1 witness: with both options supplied non-empty, the usage error fires, no I/O is
attempted and the exit code is 2. -/
theorem get_resource_usage_error_witness :
    ((Main.truthy (some "a.avsc") && Main.truthy (some "http://x")) = true ∨
      ((some "a.avsc" : Option String) = none ∧ (some "http://x" : Option String) = none)) ∧
    (Main.get_resource envC1 (some "a.avsc") (some "http://x") none).snd = [] ∧
    Main.runExit (Main.get_resource envC1 (some "a.avsc") (some "http://x") none).fst = 2 := by
  have h : (Main.truthy (some "a.avsc") && Main.truthy (some "http://x")) = true ∨
      ((some "a.avsc" : Option String) = none ∧ (some "http://x" : Option String) = none) := by
    decide
  exact ⟨h, (get_resource_usage_error envC1 (some "a.avsc") (some "http://x") none h).2⟩

/-- C7 counterexample: a non-2xx response is not treated as a network failure and does not
propagate to the caller: with a 500 response whose body is valid JSON, the loader returns
the parsed body as a success. -/
theorem url_loader_non2xx_counterexample :
    envC7.net "http://bad" = .response 500 "\x7b\x7d" ∧
    (SchemaUtils.get_resource_from_url envC7 "http://bad").fst = .ok (.obj .nil) ∧
    Main.runExit (SchemaUtils.get_resource_from_url envC7 "http://bad").fst = 0 := by
  refine ⟨by decide, rfl, rfl⟩

/-- C7 (amended): the url loader performs exactly one GET with no retry (the effect list is
always exactly one netGet); an exception raised by the GET (timeout, connection refused)
propagates as-is with its message; the response status is never inspected: for any response
the body is handed to the JSON parser whatever the status code. -/
theorem url_loader_single_get (env : Env) (url : String) :
    (SchemaUtils.get_resource_from_url env url).snd = [Effect.netGet url] ∧
    (∀ m, env.net url = .exc m →
      (SchemaUtils.get_resource_from_url env url).fst = .error (.netError m)) ∧
    (∀ status body, env.net url = .response status body →
      (SchemaUtils.get_resource_from_url env url).fst =
        match env.jsonParse body with
        | .ok j => .ok j
        | .error cause => .error (.jsonRequired (SchemaUtils.jsonRequiredMsg url) cause)) := by
  refine ⟨?_, ?_, ?_⟩
  · unfold SchemaUtils.get_resource_from_url
    cases hn : env.net url with
    | exc m => simp
    | response status body => cases hj : env.jsonParse body <;> simp [hj]
  · intro m hn
    simp [SchemaUtils.get_resource_from_url, hn]
  · intro status body hn
    cases hj : env.jsonParse body <;>
      simp [SchemaUtils.get_resource_from_url, hn, hj]

/-- C7 witness: on a url whose GET raises a transport error, the loader made exactly one GET
attempt and the error propagates with its message. -/
theorem url_loader_single_get_witness :
    (SchemaUtils.get_resource_from_url envC7 "http://other").snd =
      [Effect.netGet "http://other"] ∧
    (SchemaUtils.get_resource_from_url envC7 "http://other").fst =
      .error (.netError "connect error") := by
  have h := url_loader_single_get envC7 "http://other"
  exact ⟨h.1, h.2.1 "connect error" (by decide)⟩

/-- C8: the deserialize command interprets the event argument with ast.literal_eval exactly
when the serialization type is avro (binary), and as the raw text to be encoded to bytes
exactly when it is avro-json, before handing the result to the decoding capability. -/
theorem deserialize_event_interpretation (env : Env) (ty : Main.SerializationType)
    (event : String) :
    (Main.deserialize_event_data env ty event = .ok (.encodedText event) ↔
      ty = .avroJson) ∧
    (∀ v, Main.deserialize_event_data env ty event = .ok (.literal v) → ty = .avro) ∧
    (ty = .avro →
      Main.deserialize_event_data env ty event =
        match env.literalEval event with
        | .ok v => .ok (.literal v)
        | .error m => .error (.otherError m)) := by
  cases ty with
  | avro =>
    have hred : Main.deserialize_event_data env .avro event =
        match env.literalEval event with
        | .ok v => .ok (.literal v)
        | .error m => .error (.otherError m) := rfl
    refine ⟨?_, fun v _ => rfl, fun _ => hred⟩
    rw [hred]
    constructor
    · intro h
      cases he : env.literalEval event <;> rw [he] at h <;> simp at h
    · intro h
      exact absurd h (by decide)
  | avroJson =>
    have hred : Main.deserialize_event_data env .avroJson event =
        .ok (.encodedText event) := rfl
    refine ⟨by simp [hred], ?_, ?_⟩
    · intro v hv
      rw [hred] at hv
      simp at hv
    · intro h
      exact absurd h (by decide)

/-- C8 witness: with the avro-json type the event is kept as raw text for encoding. -/
theorem deserialize_event_interpretation_witness :
    Main.deserialize_event_data envC8 .avroJson "some event" =
      .ok (.encodedText "some event") :=
  (deserialize_event_interpretation envC8 .avroJson "some event").1.mpr rfl

/-- C4 counterexample: the parser rejects the document jC4 as an unknown type with message
UNIQUEPARSERMSG, and the validator raises InvalidSchema, but the raised message does not
contain the message of the parser. -/
theorem validate_schema_unknown_type_counterexample :
    envC4.parse jC4 = .unknownType "UNIQUEPARSERMSG" ∧
    SchemaUtils.validate_schema envC4 jC4 =
      .error (.invalidSchema (SchemaUtils.unknownTypeMsg jC4)) ∧
    strContains (SchemaUtils.unknownTypeMsg jC4) "UNIQUEPARSERMSG" = false := by
  refine ⟨rfl, rfl, by decide⟩

/-- C4 (amended): the validator raises InvalidSchema in both failure cases; for a
SchemaParseException the raised message contains the offending document and the message of
the parser; for an UnknownType the raised message contains the offending document and a
fixed hint, but not the message of the parser. -/
theorem validate_schema_error_messages (env : Env) (schema : Json) (m : String) :
    (env.parse schema = .schemaParseException m →
      SchemaUtils.validate_schema env schema =
        .error (.invalidSchema (SchemaUtils.notValidMsg schema m)) ∧
      strContains (SchemaUtils.notValidMsg schema m) (pyRepr schema) = true ∧
      strContains (SchemaUtils.notValidMsg schema m) m = true) ∧
    (env.parse schema = .unknownType m →
      SchemaUtils.validate_schema env schema =
        .error (.invalidSchema (SchemaUtils.unknownTypeMsg schema)) ∧
      strContains (SchemaUtils.unknownTypeMsg schema) (pyRepr schema) = true) := by
  constructor
  · intro h
    refine ⟨by simp [SchemaUtils.validate_schema, h], ?_, ?_⟩
    · have hs := strContains_append "Schema " (pyRepr schema)
        (" is not valid.\n Error: `" ++ m ++ "`")
      simpa [SchemaUtils.notValidMsg, String.append_assoc] using hs
    · have hs := strContains_append ("Schema " ++ pyRepr schema ++ " is not valid.\n Error: `")
        m "`"
      simpa [SchemaUtils.notValidMsg, String.append_assoc] using hs
  · intro h
    refine ⟨by simp [SchemaUtils.validate_schema, h], ?_⟩
    have hs := strContains_append "Schema " (pyRepr schema)
      " is an unknown type.\n Make sure that its type is a python dictionary"
    simpa [SchemaUtils.unknownTypeMsg, String.append_assoc] using hs

/-- C4 witness: on a parser that raises SchemaParseException with message BADFIELD, the
raised InvalidSchema message contains both the document and BADFIELD. -/
theorem validate_schema_error_messages_witness :
    SchemaUtils.validate_schema
        ⟨fun _ => none, fun _ => .exc "x", fun _ => .error "x",
         fun _ => .schemaParseException "BADFIELD", fun _ => .error "x"⟩ jC4 =
      .error (.invalidSchema (SchemaUtils.notValidMsg jC4 "BADFIELD")) ∧
    strContains (SchemaUtils.notValidMsg jC4 "BADFIELD") (pyRepr jC4) = true ∧
    strContains (SchemaUtils.notValidMsg jC4 "BADFIELD") "BADFIELD" = true :=
  (validate_schema_error_messages
    ⟨fun _ => none, fun _ => .exc "x", fun _ => .error "x",
     fun _ => .schemaParseException "BADFIELD", fun _ => .error "x"⟩ jC4 "BADFIELD").1 rfl

/-- C6: the validate-schema command prints the success banner followed by the schema content
and exits 0 whenever loading and validation succeed; whenever loading or validation raises,
the same error propagates out of the command and the process exit code is non-zero. -/
theorem validate_schema_command (env : Env) (path url : Option String) :
    (∀ j effs, Main.get_resource env path url none = (.ok j, effs) →
      env.parse j = .ok →
      Main.validate_schema env path url = (.ok [.text Main.validMsg, .value j], effs) ∧
      Main.runExit (Main.validate_schema env path url).fst = 0) ∧
    (∀ e effs, Main.get_resource env path url none = (.error e, effs) →
      Main.validate_schema env path url = (.error e, effs) ∧
      Main.runExit (Main.validate_schema env path url).fst ≠ 0) ∧
    (∀ j effs e, Main.get_resource env path url none = (.ok j, effs) →
      SchemaUtils.validate env j = .error e →
      Main.validate_schema env path url = (.error e, effs) ∧
      Main.runExit (Main.validate_schema env path url).fst ≠ 0) := by
  refine ⟨?_, ?_, ?_⟩
  · intro j effs hr hp
    have hv : SchemaUtils.validate env j = .ok true := by
      simp [SchemaUtils.validate, SchemaUtils.validate_schema, hp]
    have hcmd : Main.validate_schema env path url =
        (.ok [.text Main.validMsg, .value j], effs) := by
      simp [Main.validate_schema, hr, hv]
    exact ⟨hcmd, by rw [hcmd]; rfl⟩
  · intro e effs hr
    have hcmd : Main.validate_schema env path url = (.error e, effs) := by
      simp [Main.validate_schema, hr]
    refine ⟨hcmd, ?_⟩
    rw [hcmd]
    exact exitOfErr_ne_zero e
  · intro j effs e hr hv
    have hcmd : Main.validate_schema env path url = (.error e, effs) := by
      simp [Main.validate_schema, hr, hv]
    refine ⟨hcmd, ?_⟩
    rw [hcmd]
    exact exitOfErr_ne_zero e

/-- C2 counterexample: with a nonexistent file first in the list, lint does not continue
past the failure: the OSError of the open() aborts the whole batch, so neither the one
valid path nor the one failing path is reported, contradicting the claimed counts N = 1
and M = 1. -/
theorem lint_batch_counterexample :
    ¬ ((Main.lint envC2c ["missing.avsc", "good.avsc"]).valid.length = 1 ∧
       (Main.lint envC2c ["missing.avsc", "good.avsc"]).errors.length = 1) ∧
    (Main.lint envC2c ["missing.avsc", "good.avsc"]).raised =
      some (.fsError "missing.avsc") := by
  decide

/-- C2 (amended): over a list of distinct paths whose files are all readable, lint processes
every path, reports exactly the valid ones, reports exactly the failing ones each paired
with its recorded error, raises the aggregate InvalidSchema (with the failure count) only
after the whole list is processed, and exits non-zero exactly when some path failed. A path
whose file cannot be opened instead raises at once and aborts the batch. -/
theorem lint_batch (env : Env) (files : List String)
    (hfs : ∀ p ∈ files, env.fs p ≠ none) (hnd : files.Nodup) :
    (Main.lint env files).valid = files.filter (Main.lintOk env) ∧
    (Main.lint env files).errors =
      (files.filter (fun p => ! Main.lintOk env p)).map
        (fun p => (p, Main.lintErr env p)) ∧
    (Main.lint env files).raised =
      (if (files.filter (fun p => ! Main.lintOk env p)).length = 0 then none
       else some (.invalidSchema ("Total errors detected: " ++
         toString (files.filter (fun p => ! Main.lintOk env p)).length))) ∧
    Main.lintExit (Main.lint env files) =
      (if (files.filter (fun p => ! Main.lintOk env p)).length = 0 then 0 else 1) := by
  have h := lintLoop_spec env files [] [] hfs hnd (fun p _ q hq => nomatch hq)
  have hmain : Main.lint env files =
      ⟨files.filter (Main.lintOk env),
       (files.filter (fun p => ! Main.lintOk env p)).map (fun p => (p, Main.lintErr env p)),
       if ((files.filter (fun p => ! Main.lintOk env p)).map
            (fun p => (p, Main.lintErr env p))).isEmpty then none
       else some (.invalidSchema ("Total errors detected: " ++
         toString ((files.filter (fun p => ! Main.lintOk env p)).map
           (fun p => (p, Main.lintErr env p))).length))⟩ := by
    simp [Main.lint, h]
  refine ⟨by rw [hmain], by rw [hmain], ?_, ?_⟩
  · rw [hmain]
    cases hcase : files.filter (fun p => ! Main.lintOk env p) with
    | nil => simp
    | cons a tl => simp
  · rw [hmain]
    cases hcase : files.filter (fun p => ! Main.lintOk env p) with
    | nil => simp [Main.lintExit]
    | cons a tl => simp [Main.lintExit, Main.exitOfErr]

/-- C2 witness: over one valid file and one file that is not JSON, lint reports one valid
path, one failing path with its JsonRequired error, raises the aggregate error, and
exits 1. -/
theorem lint_batch_witness :
    (Main.lint envC2w ["a.avsc", "b.txt"]).valid = ["a.avsc"] ∧
    (Main.lint envC2w ["a.avsc", "b.txt"]).errors =
      [("b.txt", .jsonRequired (SchemaUtils.jsonRequiredMsg "b.txt")
        "Expecting value: line 1 column 1 (char 0)")] ∧
    Main.lintExit (Main.lint envC2w ["a.avsc", "b.txt"]) = 1 := by
  have h := lint_batch envC2w ["a.avsc", "b.txt"] (by decide) (by decide)
  refine ⟨?_, ?_, ?_⟩
  · rw [h.1]
    decide
  · rw [h.2.1]
    decide
  · rw [h.2.2.2]
    decide

/-- C6 witness: a valid schema loaded from a local file makes validate-schema print the
banner and the schema and exit 0. -/
theorem validate_schema_command_witness :
    Main.validate_schema envC6 (some "example.avsc") none =
      (.ok [.text Main.validMsg, .value (.obj .nil)], [.fsRead "example.avsc"]) ∧
    Main.runExit (Main.validate_schema envC6 (some "example.avsc") none).fst = 0 :=
  (validate_schema_command envC6 (some "example.avsc") none).1 (.obj .nil)
    [.fsRead "example.avsc"] rfl rfl

end DcAvro
